import Mathlib

/-
Verification of the habit-tracking bot's notification/settlement core.

Shallow embedding of the store and scheduler operations of the repository:
  - database.py / habit_tracker/database.py : log_habit, update_streak,
    mark_notification_responded, get_expired_notifications,
    delete_expired_notifications, update_marathon_points, get_habit_stats
  - scheduler.py / habit_tracker/scheduler.py : check_expired_notifications,
    process_end_of_day
  - handlers.py : the log write handlers (log_boolean / log_custom_value),
    which call log_habit and then mark_notification_responded.

SQL REAL columns are modelled as rationals, INTEGER columns as Int (Python
integers are unbounded), dates as Int day indices, and each table as a list
of rows.  A SELECT ... fetchone is List.find?, an UPDATE ... WHERE is a map
over the rows (SQL updates every matching row), and an INSERT appends.
-/

namespace HabitBot

inductive HabitType
  | boolean
  | numeric
deriving DecidableEq, Repr

/-- Row of the habits table (columns used by the core). -/
structure Habit where
  id : Nat
  user_id : Nat
  habit_type : HabitType
  daily_goal : ℚ
  streak : Int
  max_streak : Int
  is_active : Bool
  marathon_id : Option Nat
deriving DecidableEq, Repr

/-- Row of the habit_logs table. -/
structure LogRow where
  habit_id : Nat
  user_id : Nat
  log_date : Int
  value : ℚ
  completed : Bool
deriving DecidableEq, Repr

/-- Row of the pending_notifications table. -/
structure Pending where
  id : Nat
  user_id : Nat
  habit_id : Nat
  expires_at : Int
  responded : Bool
deriving DecidableEq, Repr

/-- Row of the marathon_participants table. -/
structure Participant where
  marathon_id : Nat
  user_id : Nat
  total_points : ℚ
deriving DecidableEq, Repr

/-- The shared store: the tables the core reads and writes. -/
structure State where
  users : List Nat
  habits : List Habit
  logs : List LogRow
  pending : List Pending
  participants : List Participant
deriving DecidableEq, Repr

/-- SELECT * FROM habits WHERE id = ? (fetchone). -/
def findHabit (s : State) (hid : Nat) : Option Habit :=
  s.habits.find? (fun h => h.id == hid)

/-- SELECT * FROM habit_logs WHERE habit_id = ? AND log_date = ? (fetchone:
the first row matching both columns). -/
def findLog : List LogRow → Nat → Int → Option LogRow
  | [], _, _ => none
  | r :: rs, hid, d =>
    if r.habit_id == hid && r.log_date == d then some r else findLog rs hid d

/-- UPDATE habit_logs SET value, completed WHERE id = existing id: the row
found by findLog is the first matching row, and it is updated in place. -/
def updateLogRow : List LogRow → Nat → Int → ℚ → Bool → List LogRow
  | [], _, _, _, _ => []
  | r :: rs, hid, d, v, c =>
    if r.habit_id == hid && r.log_date == d then
      { r with value := v, completed := c } :: rs
    else
      r :: updateLogRow rs hid d v c

/-- Return payload of log_habit (database.py log_habit). -/
structure LogResult where
  new_value : ℚ
  daily_goal : ℚ
  completed : Bool
deriving DecidableEq, Repr

/-- database.py log_habit: fetch the habit, fetch today's log; if a log row
exists add the delta to its value and recompute completed, otherwise insert
a fresh row; completed = 1 iff new_value >= daily_goal.  A missing habit is
the source's unhandled fetchone crash, modelled as none. -/
def log_habit (s : State) (hid uid : Nat) (value : ℚ) (d : Int) :
    Option (State × LogResult) :=
  match findHabit s hid with
  | none => none
  | some habit =>
    match findLog s.logs hid d with
    | some existing =>
      let new_value := existing.value + value
      let completed := decide (habit.daily_goal ≤ new_value)
      some ({ s with logs := updateLogRow s.logs hid d new_value completed },
            ⟨new_value, habit.daily_goal, completed⟩)
    | none =>
      let new_value := value
      let completed := decide (habit.daily_goal ≤ new_value)
      some ({ s with logs := s.logs ++ [⟨hid, uid, d, new_value, completed⟩] },
            ⟨new_value, habit.daily_goal, completed⟩)

/-- log_habit as a state transformer; a crash leaves the store unchanged
(the schedulers call it inside try/except). -/
def log_habit_state (s : State) (hid uid : Nat) (value : ℚ) (d : Int) : State :=
  match log_habit s hid uid value d with
  | some (s', _) => s'
  | none => s

/-- database.py update_streak: read (streak, max_streak) of the habit, set
streak to old+1 and max_streak to max(old_max, new) when completed, else
streak 0 with max_streak unchanged; returns (new_streak, completed). -/
def update_streak (s : State) (hid : Nat) (completed : Bool) :
    Option (State × Int × Bool) :=
  match findHabit s hid with
  | none => none
  | some h =>
    let new_streak : Int := if completed then h.streak + 1 else 0
    let new_max : Int := if completed then max h.max_streak new_streak else h.max_streak
    some ({ s with habits := s.habits.map (fun x =>
              if x.id == hid then { x with streak := new_streak, max_streak := new_max }
              else x) },
          new_streak, completed)

/-- database.py mark_notification_responded: UPDATE pending_notifications
SET responded = 1 WHERE user_id = ? AND habit_id = ? AND responded = 0. -/
def mark_notification_responded (s : State) (uid hid : Nat) : State :=
  { s with pending := s.pending.map (fun p =>
      if p.user_id == uid && p.habit_id == hid && !p.responded then
        { p with responded := true }
      else p) }

/-- database.py get_expired_notifications: rows with responded = 0 and
expires_at < now. -/
def get_expired_notifications (s : State) (now : Int) : List Pending :=
  s.pending.filter (fun p => !p.responded && decide (p.expires_at < now))

/-- database.py delete_expired_notifications: DELETE WHERE responded = 1 OR
expires_at < now. -/
def delete_expired_notifications (s : State) (now : Int) : State :=
  { s with pending := s.pending.filter (fun p =>
      !(p.responded || decide (p.expires_at < now))) }

/-- database.py update_marathon_points: add points to the participant row
matching (user_id, marathon_id). -/
def update_marathon_points (s : State) (uid mid : Nat) (points : ℚ) : State :=
  { s with participants := s.participants.map (fun p =>
      if p.user_id == uid && p.marathon_id == mid then
        { p with total_points := p.total_points + points }
      else p) }

/-- database.py get_user_habits with active_only = True (the schedulers'
call); ORDER BY is irrelevant to the settled claims and not modelled. -/
def get_user_habits (s : State) (uid : Nat) : List Habit :=
  s.habits.filter (fun h => h.user_id == uid && h.is_active)

/-- database.py get_daily_log. -/
def get_daily_log (s : State) (hid : Nat) (d : Int) : Option LogRow :=
  findLog s.logs hid d

/-- The day's accumulated value as the schedulers read it: the log's value,
or 0 if no row exists. -/
def getValue (s : State) (hid : Nat) (d : Int) : ℚ :=
  match get_daily_log s hid d with
  | some l => l.value
  | none => 0

/-- The completion test process_end_of_day performs at settlement time:
value-on-record (0 when no log) compared against the habit's goal
(scheduler.py `completed = value >= goal`). -/
def settlement_completed (s : State) (h : Habit) (today : Int) : Bool :=
  decide (h.daily_goal ≤ getValue s h.id today)

/-- One iteration of the per-habit loop in process_end_of_day: recompute
completed from the day's log, update the streak, and when the habit is
marathon-linked and completed credit 1 point to the owning participant
(scheduler.py / habit_tracker/scheduler.py process_end_of_day body).
The habit record h is the snapshot read at the start of the user's loop. -/
def settleHabit (s : State) (uid : Nat) (today : Int) (h : Habit) : State :=
  let completed := settlement_completed s h today
  let s1 := match update_streak s h.id completed with
    | some (s', _, _) => s'
    | none => s
  match h.marathon_id with
  | some mid => if completed then update_marathon_points s1 uid mid 1 else s1
  | none => s1

/-- process_end_of_day restricted to one user: iterate the user's active
habits (snapshot taken before the loop) and settle each. -/
def process_end_of_day_user (s : State) (uid : Nat) (today : Int) : State :=
  (get_user_habits s uid).foldl (fun st h => settleHabit st uid today h) s

/-- scheduler.py process_end_of_day: run the per-user settlement for every
user (report rendering and message sending are gateway effects, outside the
store model). -/
def process_end_of_day (s : State) (today : Int) : State :=
  s.users.foldl (fun st uid => process_end_of_day_user st uid today) s

/-- Zero-fill step of the expiry sweep for one expired entry
(habit_tracker/scheduler.py check_expired_notifications body): fetch the
user's active habits and the day's logs in one batch, and for every habit
whose log is absent or not completed, write a zero-value log via the same
additive log_habit used by manual logging.  Returns the new store and the
list of habit ids that were zero-filled (the log writes performed). -/
def sweepEntryFill (s : State) (uid : Nat) (today : Int) : State × List Nat :=
  let habits := get_user_habits s uid
  let toFill := habits.filter (fun h =>
    match get_daily_log s h.id today with
    | some l => !l.completed
    | none => true)
  (toFill.foldl (fun st h => log_habit_state st h.id uid 0 today) s,
   toFill.map (fun h => h.id))

/-- One iteration of the expired-entry loop: inside try/except, delete the
delivered message (gateway effect) and zero-fill the user's uncompleted
habits; `ok` is the oracle saying whether the entry's processing runs to
completion or raises and is skipped. -/
def sweepStep (today : Int) (ok : Nat → Bool) (acc : State × List Nat)
    (p : Pending) : State × List Nat :=
  if ok p.id then
    ((sweepEntryFill acc.1 p.user_id today).1,
     acc.2 ++ (sweepEntryFill acc.1 p.user_id today).2)
  else acc

/-- habit_tracker/scheduler.py check_expired_notifications: select the
expired unanswered ledger entries, process each inside try/except, then
unconditionally delete every responded-or-expired ledger row.  Returns the
new store and the list of zero-fill log writes performed. -/
def check_expired_notifications (s : State) (now today : Int)
    (ok : Nat → Bool) : State × List Nat :=
  let folded := (get_expired_notifications s now).foldl (sweepStep today ok) (s, [])
  (delete_expired_notifications folded.1 now, folded.2)

/-- handlers.py log write handlers (log_boolean, log_numeric,
log_custom_value, notification_response): each calls db.log_habit for the
chosen habit and then db.mark_notification_responded(user, habit).  The
custom-value handler parses any float, with no sign check.  When
db.log_habit raises (its fetchone crash on a missing habit row), the
exception propagates out of the handler before mark_notification_responded
is reached, and no store write has happened. -/
def handler_log_value (s : State) (uid hid : Nat) (v : ℚ) (d : Int) : State :=
  match log_habit s hid uid v d with
  | some (s', _) => mark_notification_responded s' uid hid
  | none => s

/-- Python's round(x, 1) tie behaviour (round-half-to-even) on exact
rationals; away from midpoints this is ordinary rounding to one decimal. -/
def round_half_even (q : ℚ) : ℤ :=
  let f : ℤ := Int.floor q
  let r : ℚ := q - (f : ℚ)
  if r < 1/2 then f
  else if 1/2 < r then f + 1
  else if f % 2 = 0 then f else f + 1

/-- round(x, 1) of the source: to one decimal place. -/
def pyRound1 (q : ℚ) : ℚ := ((round_half_even (q * 10) : ℤ) : ℚ) / 10

/-- Boolean-habit branch of the get_habit_stats return value. -/
structure BoolStats where
  total_days : Int
  completed_days : Nat
  missed_days : Int
  efficiency : ℚ
deriving DecidableEq, Repr

/-- SELECT * FROM habit_logs WHERE habit_id = ? AND log_date BETWEEN ? AND ?
(ORDER BY log_date only affects presentation of the logs list). -/
def logsInRange (s : State) (hid : Nat) (a b : Int) : List LogRow :=
  s.logs.filter (fun r => r.habit_id == hid &&
    decide (a ≤ r.log_date) && decide (r.log_date ≤ b))

/-- database.py get_habit_stats, boolean-habit branch: total_days =
(end-start).days + 1, completed_days counts logs with the completed flag,
missed_days = total - completed, efficiency = round(completed/total*100, 1)
when total_days > 0 else 0.  The numeric-habit branch returns a different
record (totals/averages) used by no settled claim and is not modelled. -/
def get_habit_stats_bool (s : State) (hid : Nat) (a b : Int) : Option BoolStats :=
  match findHabit s hid with
  | none => none
  | some habit =>
    if habit.habit_type = HabitType.boolean then
      let logs := logsInRange s hid a b
      let total_days : Int := b - a + 1
      let completed := (logs.filter (fun l => l.completed)).length
      some ⟨total_days, completed, total_days - (completed : Int),
            if 0 < total_days then pyRound1 ((completed : ℚ) / (total_days : ℚ) * 100)
            else 0⟩
    else none

/-- Points on record for a (user, marathon) participant pair. -/
def getPoints (s : State) (uid mid : Nat) : ℚ :=
  match s.participants.find? (fun p => p.user_id == uid && p.marathon_id == mid) with
  | some p => p.total_points
  | none => 0

/-- Key of a habit_logs row under the UNIQUE(habit_id, log_date) constraint. -/
def logKey (r : LogRow) : Nat × Int := (r.habit_id, r.log_date)

/-- The UNIQUE(habit_id, log_date) table invariant: no two rows share a key. -/
def LogsUnique (logs : List LogRow) : Prop := (logs.map logKey).Nodup

/-- The completed flag as read back from the day's log (false when absent). -/
def getCompleted (s : State) (hid : Nat) (d : Int) : Bool :=
  match get_daily_log s hid d with
  | some l => l.completed
  | none => false

/- ------------------------------------------------------------------ -/
/- Helper lemmas                                                       -/
/- ------------------------------------------------------------------ -/

theorem log_habit_some_tables (s : State) (hid uid : Nat) (v : ℚ) (d : Int)
    (s' : State) (r : LogResult) (h : log_habit s hid uid v d = some (s', r)) :
    s'.users = s.users ∧ s'.habits = s.habits ∧ s'.pending = s.pending ∧
      s'.participants = s.participants := by
  unfold log_habit at h
  split at h
  · exact absurd h (by simp)
  · split at h <;>
    · simp only [Option.some.injEq, Prod.mk.injEq] at h
      obtain ⟨h1, -⟩ := h
      subst h1
      exact ⟨rfl, rfl, rfl, rfl⟩

theorem log_habit_state_pending (s : State) (hid uid : Nat) (v : ℚ) (d : Int) :
    (log_habit_state s hid uid v d).pending = s.pending := by
  unfold log_habit_state
  split
  · next s' r h => exact (log_habit_some_tables s hid uid v d s' r h).2.2.1
  · rfl

theorem log_habit_state_habits (s : State) (hid uid : Nat) (v : ℚ) (d : Int) :
    (log_habit_state s hid uid v d).habits = s.habits := by
  unfold log_habit_state
  split
  · next s' r h => exact (log_habit_some_tables s hid uid v d s' r h).2.1
  · rfl

theorem findHabit_map_update (s : State) (hid : Nat) (ns nm : Int) :
    findHabit { s with habits := s.habits.map (fun x =>
        if x.id == hid then { x with streak := ns, max_streak := nm } else x) } hid
      = (findHabit s hid).map (fun x =>
        if x.id == hid then { x with streak := ns, max_streak := nm } else x) := by
  unfold findHabit
  rw [List.find?_map]
  have hp : ((fun h : Habit => h.id == hid) ∘ fun x =>
      if x.id == hid then { x with streak := ns, max_streak := nm } else x)
      = fun h : Habit => h.id == hid := by
    funext x
    by_cases hx : (x.id == hid) = true <;> simp [Function.comp, hx]
  rw [hp]

theorem findLog_updateLogRow (l : List LogRow) (hid : Nat) (d : Int) (v : ℚ)
    (c : Bool) (e : LogRow) (h : findLog l hid d = some e) :
    findLog (updateLogRow l hid d v c) hid d =
      some { e with value := v, completed := c } := by
  induction l with
  | nil => simp [findLog] at h
  | cons r rs ih =>
    simp only [findLog] at h
    simp only [updateLogRow]
    by_cases hr : (r.habit_id == hid && r.log_date == d) = true
    · rw [if_pos hr] at h
      have hre : r = e := Option.some.inj h
      subst hre
      rw [if_pos hr]
      simp [findLog, hr]
    · rw [if_neg hr] at h
      rw [if_neg hr]
      simp only [findLog]
      rw [if_neg hr]
      exact ih h

theorem findLog_append_of_none (l : List LogRow) (hid : Nat) (d : Int)
    (r : LogRow) (h : findLog l hid d = none) :
    findLog (l ++ [r]) hid d = findLog [r] hid d := by
  induction l with
  | nil => rfl
  | cons x xs ih =>
    simp only [findLog] at h
    by_cases hx : (x.habit_id == hid && x.log_date == d) = true
    · rw [if_pos hx] at h
      cases h
    · rw [if_neg hx] at h
      simp only [List.cons_append, findLog]
      rw [if_neg hx]
      exact ih h

theorem findLog_singleton (hid uid : Nat) (d : Int) (v : ℚ) (c : Bool) :
    findLog [⟨hid, uid, d, v, c⟩] hid d = some ⟨hid, uid, d, v, c⟩ := by
  simp [findLog]

theorem findLog_none_forall (l : List LogRow) (hid : Nat) (d : Int)
    (h : findLog l hid d = none) :
    ∀ r ∈ l, ¬(r.habit_id == hid && r.log_date == d) = true := by
  induction l with
  | nil => intro r hr; cases hr
  | cons x xs ih =>
    simp only [findLog] at h
    by_cases hx : (x.habit_id == hid && x.log_date == d) = true
    · rw [if_pos hx] at h; cases h
    · rw [if_neg hx] at h
      intro r hr
      rcases List.mem_cons.mp hr with hr1 | hr2
      · subst hr1; exact hx
      · exact ih h r hr2

theorem map_logKey_updateLogRow (l : List LogRow) (hid : Nat) (d : Int)
    (v : ℚ) (c : Bool) :
    (updateLogRow l hid d v c).map logKey = l.map logKey := by
  induction l with
  | nil => rfl
  | cons r rs ih =>
    unfold updateLogRow
    by_cases hr : (r.habit_id == hid && r.log_date == d) = true
    · rw [if_pos hr]
      simp [logKey]
    · rw [if_neg hr]
      simp [ih, logKey]

theorem logKey_not_mem_of_findLog_none (l : List LogRow) (hid : Nat) (d : Int)
    (h : findLog l hid d = none) : (hid, d) ∉ l.map logKey := by
  intro hmem
  rw [List.mem_map] at hmem
  obtain ⟨r, hr, hk⟩ := hmem
  apply findLog_none_forall l hid d h r hr
  have h1 : r.habit_id = hid := congrArg Prod.fst hk
  have h2 : r.log_date = d := congrArg Prod.snd hk
  simp [h1, h2]

theorem log_habit_update_eq (s : State) (hid uid : Nat) (v : ℚ) (d : Int)
    (habit : Habit) (e : LogRow) (hh : findHabit s hid = some habit)
    (he : findLog s.logs hid d = some e) :
    log_habit s hid uid v d = some
      ({ s with logs := (updateLogRow s.logs hid d (e.value + v)
          (decide (habit.daily_goal ≤ e.value + v))) },
       ⟨e.value + v, habit.daily_goal, decide (habit.daily_goal ≤ e.value + v)⟩) := by
  unfold log_habit
  rw [hh, he]

theorem log_habit_insert_eq (s : State) (hid uid : Nat) (v : ℚ) (d : Int)
    (habit : Habit) (hh : findHabit s hid = some habit)
    (he : findLog s.logs hid d = none) :
    log_habit s hid uid v d = some
      ({ s with logs := s.logs ++ [⟨hid, uid, d, v, decide (habit.daily_goal ≤ v)⟩] },
       ⟨v, habit.daily_goal, decide (habit.daily_goal ≤ v)⟩) := by
  unfold log_habit
  rw [hh, he]

theorem log_habit_none_eq (s : State) (hid uid : Nat) (v : ℚ) (d : Int)
    (hh : findHabit s hid = none) : log_habit s hid uid v d = none := by
  unfold log_habit
  rw [hh]

theorem getValue_of_findLog_some (s : State) (hid : Nat) (d : Int) (e : LogRow)
    (h : findLog s.logs hid d = some e) : getValue s hid d = e.value := by
  unfold getValue get_daily_log
  rw [h]

theorem getValue_of_findLog_none (s : State) (hid : Nat) (d : Int)
    (h : findLog s.logs hid d = none) : getValue s hid d = 0 := by
  unfold getValue get_daily_log
  rw [h]

theorem getCompleted_of_findLog_some (s : State) (hid : Nat) (d : Int)
    (e : LogRow) (h : findLog s.logs hid d = some e) :
    getCompleted s hid d = e.completed := by
  unfold getCompleted get_daily_log
  rw [h]

/- ------------------------------------------------------------------ -/
/- Claims                                                              -/
/- ------------------------------------------------------------------ -/

/-- Claim C3: update_streak sets newStreak = oldStreak + 1 when completed and
newStreak = 0 otherwise, sets newMaxStreak = max(oldMaxStreak, newStreak)
when completed and leaves it unchanged otherwise, persists both on the habit
row, and returns (newStreak, completed). -/
theorem update_streak_transition (s : State) (hid : Nat) (completed : Bool)
    (habit : Habit) (hh : findHabit s hid = some habit) :
    ∃ s', update_streak s hid completed =
        some (s', (if completed then habit.streak + 1 else 0 : Int), completed) ∧
      findHabit s' hid = some
        { habit with
          streak := if completed then habit.streak + 1 else 0,
          max_streak := if completed then max habit.max_streak (habit.streak + 1)
            else habit.max_streak } := by
  have hh2 : s.habits.find? (fun h => h.id == hid) = some habit := hh
  have hb : habit.id = hid := by simpa using List.find?_some hh2
  unfold update_streak
  rw [hh]
  cases completed <;>
  · refine ⟨_, rfl, ?_⟩
    rw [findHabit_map_update, hh]
    simp [hb]

/-- Witness for C3 at the claim's concrete instance: prior streak 4 and
max streak 6; completed=true yields streak 5 and maxStreak max(6,5)=6. -/
theorem update_streak_transition_witness :
    ∃ s', update_streak
        { users := [1],
          habits := [⟨1, 1, HabitType.boolean, 1, 4, 6, true, none⟩],
          logs := [], pending := [], participants := [] } 1 true =
        some (s', 4 + 1, true) ∧
      findHabit s' 1 = some ⟨1, 1, HabitType.boolean, 1, 4 + 1, max 6 (4 + 1), true, none⟩ :=
  update_streak_transition _ 1 true ⟨1, 1, HabitType.boolean, 1, 4, 6, true, none⟩
    (by with_unfolding_all rfl)

/-- Claim C4: update_streak preserves the invariant max_streak ≥ streak
(with streak non-negative) on every habit row, in both the completed=true
and completed=false branches. -/
theorem update_streak_preserves_invariant (s : State) (hid : Nat)
    (completed : Bool) (s' : State) (ns : Int) (c : Bool)
    (hinv : ∀ h ∈ s.habits, 0 ≤ h.streak ∧ h.streak ≤ h.max_streak)
    (h : update_streak s hid completed = some (s', ns, c)) :
    ∀ h' ∈ s'.habits, 0 ≤ h'.streak ∧ h'.streak ≤ h'.max_streak := by
  unfold update_streak at h
  cases hf : findHabit s hid with
  | none => rw [hf] at h; exact absurd h (by simp)
  | some hb =>
    rw [hf] at h
    simp only [Option.some.injEq, Prod.mk.injEq] at h
    obtain ⟨h1, -, -⟩ := h
    subst h1
    intro h' hmem
    simp only [List.mem_map] at hmem
    obtain ⟨x, hx, hfx⟩ := hmem
    have hbinv := hinv hb (List.mem_of_find?_eq_some hf)
    have hxinv := hinv x hx
    by_cases hcond : (x.id == hid) = true
    · rw [if_pos hcond] at hfx
      subst hfx
      cases completed
      · simp only [Bool.false_eq_true, if_false]
        exact ⟨le_refl 0, le_trans hbinv.1 hbinv.2⟩
      · simp only [if_true]
        exact ⟨by omega, le_max_right _ _⟩
    · rw [if_neg hcond] at hfx
      subst hfx
      exact hxinv

/-- Witness for C4: a habit with streak 4 and max streak 6 satisfies the
invariant before, and the row after a completed=false settlement (streak 0,
max streak 6) still satisfies it. -/
theorem update_streak_preserves_invariant_witness :
    (0 : Int) ≤ 0 ∧ (0 : Int) ≤ 6 :=
  update_streak_preserves_invariant
    { users := [1],
      habits := [⟨1, 1, HabitType.boolean, 1, 4, 6, true, none⟩],
      logs := [], pending := [], participants := [] }
    1 false _ 0 false
    (of_decide_eq_true (by with_unfolding_all rfl))
    (by with_unfolding_all rfl)
    ⟨1, 1, HabitType.boolean, 1, 0, 6, true, none⟩
    (of_decide_eq_true (by with_unfolding_all rfl))

/-- Claim C5: at most one DailyLog row per (habit, date) is maintained, and
repeated log_habit calls for the same habit and date are additive on the
stored value: with no row for the day yet, logging a then b leaves a store
satisfying the uniqueness invariant whose row for the day has value a + b
(not b), with the completed flag recomputed from the accumulated value. -/
theorem log_habit_additive_unique (s : State) (hid uid : Nat) (d : Int)
    (a b : ℚ) (habit : Habit) (hh : findHabit s hid = some habit)
    (h0 : findLog s.logs hid d = none) (hu : LogsUnique s.logs) :
    LogsUnique (log_habit_state (log_habit_state s hid uid a d) hid uid b d).logs ∧
    findLog (log_habit_state (log_habit_state s hid uid a d) hid uid b d).logs hid d =
      some ⟨hid, uid, d, a + b, decide (habit.daily_goal ≤ a + b)⟩ := by
  have hs1 : log_habit_state s hid uid a d =
      { s with logs := s.logs ++ [⟨hid, uid, d, a, decide (habit.daily_goal ≤ a)⟩] } := by
    unfold log_habit_state
    rw [log_habit_insert_eq s hid uid a d habit hh h0]
  rw [hs1]
  have hf1 : findLog (s.logs ++ [⟨hid, uid, d, a, decide (habit.daily_goal ≤ a)⟩]) hid d
      = some ⟨hid, uid, d, a, decide (habit.daily_goal ≤ a)⟩ := by
    rw [findLog_append_of_none s.logs hid d _ h0, findLog_singleton]
  have hh1 : findHabit
      { s with logs := s.logs ++ [⟨hid, uid, d, a, decide (habit.daily_goal ≤ a)⟩] } hid
      = some habit := hh
  have hs2 : log_habit_state
      { s with logs := s.logs ++ [⟨hid, uid, d, a, decide (habit.daily_goal ≤ a)⟩] }
      hid uid b d
      = { s with logs := (updateLogRow
          (s.logs ++ [⟨hid, uid, d, a, decide (habit.daily_goal ≤ a)⟩]) hid d
          (a + b) (decide (habit.daily_goal ≤ a + b))) } := by
    unfold log_habit_state
    rw [log_habit_update_eq _ hid uid b d habit _ hh1 hf1]
  rw [hs2]
  constructor
  · unfold LogsUnique
    rw [map_logKey_updateLogRow, List.map_append]
    have hsing : List.map logKey [(⟨hid, uid, d, a, decide (habit.daily_goal ≤ a)⟩ : LogRow)]
        = [(hid, d)] := by simp [logKey]
    rw [hsing, List.nodup_append]
    refine ⟨hu, by simp, ?_⟩
    intro x hx hx2
    have hxeq : x = (hid, d) := by simpa using hx2
    subst hxeq
    exact logKey_not_mem_of_findLog_none s.logs hid d h0 hx
  · rw [findLog_updateLogRow _ hid d _ _ _ hf1]

def c5state : State :=
  { users := [1],
    habits := [⟨1, 1, HabitType.numeric, 4, 0, 0, true, none⟩],
    logs := [], pending := [], participants := [] }

/-- Witness for C5 at the claim's concrete instance: logging 3 then 2 on the
same date yields the single row value 5 (goal 4, so completed), not 2. -/
theorem log_habit_additive_unique_witness :
    LogsUnique (log_habit_state (log_habit_state c5state 1 1 3 0) 1 1 2 0).logs ∧
    findLog (log_habit_state (log_habit_state c5state 1 1 3 0) 1 1 2 0).logs 1 0 =
      some ⟨1, 1, 0, 5, true⟩ := by
  with_unfolding_all exact (log_habit_additive_unique c5state 1 1 0 3 2
    ⟨1, 1, HabitType.numeric, 4, 0, 0, true, none⟩
    (by with_unfolding_all rfl) (by with_unfolding_all rfl) List.nodup_nil)

/-- Claim C6: the stored completed flag equals exactly (value >= daily_goal)
on every log write, with value = goal giving completed; and settlement
recomputes completion as exactly (value-on-record >= daily_goal), again with
equality counting as completed. -/
theorem completed_flag_spec (s : State) (hid uid : Nat) (v : ℚ) (d : Int)
    (s' : State) (r : LogResult) (hx : Habit) (today : Int)
    (h : log_habit s hid uid v d = some (s', r)) :
    getValue s' hid d = r.new_value ∧
    (getCompleted s' hid d = true ↔ r.daily_goal ≤ getValue s' hid d) ∧
    (getValue s' hid d = r.daily_goal → getCompleted s' hid d = true) ∧
    (settlement_completed s hx today = true ↔ hx.daily_goal ≤ getValue s hx.id today) ∧
    (getValue s hx.id today = hx.daily_goal → settlement_completed s hx today = true) := by
  have hsetl : settlement_completed s hx today = true ↔
      hx.daily_goal ≤ getValue s hx.id today := by
    unfold settlement_completed
    exact decide_eq_true_iff
  have hsetl2 : getValue s hx.id today = hx.daily_goal →
      settlement_completed s hx today = true := fun hvg => hsetl.mpr (le_of_eq hvg.symm)
  rcases hf : findHabit s hid with _ | habit
  · rw [log_habit_none_eq s hid uid v d hf] at h
    cases h
  · rcases he : findLog s.logs hid d with _ | e
    · rw [log_habit_insert_eq s hid uid v d habit hf he] at h
      simp only [Option.some.injEq, Prod.mk.injEq] at h
      obtain ⟨h1, h2⟩ := h
      subst h1
      subst h2
      have hfa : findLog
          ({ s with logs := s.logs ++ [⟨hid, uid, d, v, decide (habit.daily_goal ≤ v)⟩] } : State).logs
          hid d = some ⟨hid, uid, d, v, decide (habit.daily_goal ≤ v)⟩ := by
        rw [findLog_append_of_none s.logs hid d _ he, findLog_singleton]
      have hgv := getValue_of_findLog_some _ hid d _ hfa
      have hgc := getCompleted_of_findLog_some _ hid d _ hfa
      rw [hgv, hgc]
      exact ⟨rfl, decide_eq_true_iff, fun hvg => decide_eq_true_iff.mpr (le_of_eq hvg.symm),
        hsetl, hsetl2⟩
    · rw [log_habit_update_eq s hid uid v d habit e hf he] at h
      simp only [Option.some.injEq, Prod.mk.injEq] at h
      obtain ⟨h1, h2⟩ := h
      subst h1
      subst h2
      have hupd := findLog_updateLogRow s.logs hid d (e.value + v)
        (decide (habit.daily_goal ≤ e.value + v)) e he
      have hgv := getValue_of_findLog_some
        ({ s with logs := (updateLogRow s.logs hid d (e.value + v)
          (decide (habit.daily_goal ≤ e.value + v))) } : State) hid d _ hupd
      have hgc := getCompleted_of_findLog_some
        ({ s with logs := (updateLogRow s.logs hid d (e.value + v)
          (decide (habit.daily_goal ≤ e.value + v))) } : State) hid d _ hupd
      rw [hgv, hgc]
      exact ⟨rfl, decide_eq_true_iff, fun hvg => decide_eq_true_iff.mpr (le_of_eq hvg.symm),
        hsetl, hsetl2⟩

def c6state : State :=
  { users := [1],
    habits := [⟨1, 1, HabitType.numeric, 3, 0, 0, true, none⟩],
    logs := [], pending := [], participants := [] }

/-- Witness for C6 at the boundary: goal 3, one log write of exactly 3; the
stored flag is completed, and settlement's recomputation agrees. -/
theorem completed_flag_spec_witness :
    getValue { c6state with logs := [⟨1, 1, 0, 3, true⟩] } 1 0 =
      (⟨3, 3, true⟩ : LogResult).new_value ∧
    (getCompleted { c6state with logs := [⟨1, 1, 0, 3, true⟩] } 1 0 = true ↔
      (⟨3, 3, true⟩ : LogResult).daily_goal ≤
        getValue { c6state with logs := [⟨1, 1, 0, 3, true⟩] } 1 0) ∧
    (getValue { c6state with logs := [⟨1, 1, 0, 3, true⟩] } 1 0 =
        (⟨3, 3, true⟩ : LogResult).daily_goal →
      getCompleted { c6state with logs := [⟨1, 1, 0, 3, true⟩] } 1 0 = true) ∧
    (settlement_completed c6state ⟨1, 1, HabitType.numeric, 3, 0, 0, true, none⟩ 0 = true ↔
      (⟨1, 1, HabitType.numeric, 3, 0, 0, true, none⟩ : Habit).daily_goal ≤
        getValue c6state (⟨1, 1, HabitType.numeric, 3, 0, 0, true, none⟩ : Habit).id 0) ∧
    (getValue c6state (⟨1, 1, HabitType.numeric, 3, 0, 0, true, none⟩ : Habit).id 0 =
        (⟨1, 1, HabitType.numeric, 3, 0, 0, true, none⟩ : Habit).daily_goal →
      settlement_completed c6state ⟨1, 1, HabitType.numeric, 3, 0, 0, true, none⟩ 0 = true) := by
  with_unfolding_all exact (completed_flag_spec c6state 1 1 3 0
    { c6state with logs := [⟨1, 1, 0, 3, true⟩] } ⟨3, 3, true⟩
    ⟨1, 1, HabitType.numeric, 3, 0, 0, true, none⟩ 0 (by with_unfolding_all rfl))

def c9state : State :=
  { users := [1],
    habits := [⟨1, 1, HabitType.numeric, 10, 0, 0, true, none⟩],
    logs := [], pending := [], participants := [] }

/-- Claim C9 counterexample: the custom-value handler accepts a negative
delta (handlers.py log_custom_value parses any float and applies no sign
check), so the stored day value can decrease: logging 3 and then -5 for the
same habit and date drops the stored value from 3 to -2. -/
theorem log_value_decreases_on_negative_delta :
    getValue (handler_log_value c9state 1 1 3 0) 1 0 = 3 ∧
    getValue (handler_log_value (handler_log_value c9state 1 1 3 0) 1 1 (-5) 0) 1 0 = -2 ∧
    ((-2 : ℚ) < 3) :=
  ⟨by with_unfolding_all rfl, by with_unfolding_all rfl, by norm_num⟩

/-- Claim C9 amended: the stored day value never decreases across log_habit
calls with a non-negative delta (negative deltas, which the custom-value
handler also accepts, can decrease it). -/
theorem log_value_monotone_of_nonneg (s : State) (hid uid : Nat) (v : ℚ)
    (d : Int) (hv : 0 ≤ v) :
    getValue s hid d ≤ getValue (log_habit_state s hid uid v d) hid d := by
  rcases hf : findHabit s hid with _ | habit
  · have hs1 : log_habit_state s hid uid v d = s := by
      unfold log_habit_state
      rw [log_habit_none_eq s hid uid v d hf]
    rw [hs1]
  · rcases he : findLog s.logs hid d with _ | e
    · have hs1 : log_habit_state s hid uid v d =
          { s with logs := s.logs ++ [⟨hid, uid, d, v, decide (habit.daily_goal ≤ v)⟩] } := by
        unfold log_habit_state
        rw [log_habit_insert_eq s hid uid v d habit hf he]
      rw [hs1, getValue_of_findLog_none s hid d he]
      have hfa : findLog
          ({ s with logs := s.logs ++ [⟨hid, uid, d, v, decide (habit.daily_goal ≤ v)⟩] } : State).logs
          hid d = some ⟨hid, uid, d, v, decide (habit.daily_goal ≤ v)⟩ := by
        rw [findLog_append_of_none s.logs hid d _ he, findLog_singleton]
      rw [getValue_of_findLog_some _ hid d _ hfa]
      exact hv
    · have hs1 : log_habit_state s hid uid v d =
          { s with logs := (updateLogRow s.logs hid d (e.value + v)
            (decide (habit.daily_goal ≤ e.value + v))) } := by
        unfold log_habit_state
        rw [log_habit_update_eq s hid uid v d habit e hf he]
      rw [hs1, getValue_of_findLog_some s hid d e he]
      have hupd := findLog_updateLogRow s.logs hid d (e.value + v)
        (decide (habit.daily_goal ≤ e.value + v)) e he
      rw [getValue_of_findLog_some _ hid d _ hupd]
      exact le_add_of_nonneg_right hv

/-- Witness for the amended C9: a delta of 2 is non-negative and does not
decrease the stored value. -/
theorem log_value_monotone_of_nonneg_witness :
    getValue c9state 1 0 ≤ getValue (log_habit_state c9state 1 1 2 0) 1 0 :=
  log_value_monotone_of_nonneg c9state 1 1 2 0
    (of_decide_eq_true (by with_unfolding_all rfl))

theorem foldl_log_habit_state_pending (l : List Habit) (uid : Nat)
    (today : Int) (s : State) :
    (l.foldl (fun st h => log_habit_state st h.id uid 0 today) s).pending
      = s.pending := by
  induction l generalizing s with
  | nil => rfl
  | cons h hs ih => rw [List.foldl_cons, ih, log_habit_state_pending]

theorem sweepEntryFill_pending (s : State) (uid : Nat) (today : Int) :
    (sweepEntryFill s uid today).1.pending = s.pending := by
  unfold sweepEntryFill
  exact foldl_log_habit_state_pending _ uid today s

theorem sweepStep_pending (today : Int) (ok : Nat → Bool)
    (acc : State × List Nat) (p : Pending) :
    (sweepStep today ok acc p).1.pending = acc.1.pending := by
  unfold sweepStep
  split
  · exact sweepEntryFill_pending acc.1 p.user_id today
  · rfl

theorem foldl_sweepStep_pending (l : List Pending) (today : Int)
    (ok : Nat → Bool) (init : State × List Nat) :
    (l.foldl (sweepStep today ok) init).1.pending = init.1.pending := by
  induction l generalizing init with
  | nil => rfl
  | cons p ps ih => rw [List.foldl_cons, ih, sweepStep_pending]

/-- After a sweep run, the ledger holds exactly the previous entries that
were neither responded nor expired: the per-entry processing never touches
the ledger and the final deletion is unconditional. -/
theorem sweep_pending_eq (s : State) (now today : Int) (ok : Nat → Bool) :
    (check_expired_notifications s now today ok).1.pending =
      s.pending.filter (fun p => !(p.responded || decide (p.expires_at < now))) := by
  unfold check_expired_notifications delete_expired_notifications
  simp only []
  rw [foldl_sweepStep_pending]

theorem check_expired_snd_of_no_expired (s : State) (now today : Int)
    (ok : Nat → Bool) (h : get_expired_notifications s now = []) :
    (check_expired_notifications s now today ok).2 = [] := by
  unfold check_expired_notifications
  rw [h]
  rfl

/-- Claim C7: the expiry sweep is idempotent: a second run with the same now
and no intervening writes performs no zero-fill log writes, whatever the
per-entry success oracle was. -/
theorem sweep_idempotent (s : State) (now today : Int) (ok : Nat → Bool) :
    (check_expired_notifications
        (check_expired_notifications s now today ok).1 now today ok).2 = [] := by
  apply check_expired_snd_of_no_expired
  unfold get_expired_notifications
  rw [sweep_pending_eq, List.filter_filter]
  rw [List.filter_eq_nil_iff]
  intro p hp
  cases hb : p.responded <;> cases hc : decide (p.expires_at < now) <;>
    simp [hb, hc]

/-- Claim C10: after a single sweep run, every entry remaining in the ledger
is unanswered and unexpired — every responded or expired entry was removed
by the final unconditional deletion, including entries whose per-entry
processing failed. -/
theorem sweep_clears_expired (s : State) (now today : Int) (ok : Nat → Bool) :
    ∀ p ∈ (check_expired_notifications s now today ok).1.pending,
      p.responded = false ∧ ¬(p.expires_at < now) := by
  intro p hp
  rw [sweep_pending_eq] at hp
  have hmem := List.mem_filter.mp hp
  have hcond := hmem.2
  cases hb : p.responded <;> cases hc : decide (p.expires_at < now) <;>
    rw [hb, hc] at hcond <;> simp_all

def c10state : State :=
  { users := [1], habits := [], logs := [],
    pending := [⟨1, 1, 1, 100, false⟩], participants := [] }

/-- Witness for C10: an unanswered entry expiring at 100 survives a sweep at
now = 50 and is indeed unanswered and unexpired. -/
theorem sweep_clears_expired_witness :
    (⟨1, 1, 1, 100, false⟩ : Pending).responded = false ∧
      ¬((⟨1, 1, 1, 100, false⟩ : Pending).expires_at < 50) :=
  sweep_clears_expired c10state 50 0 (fun _ => true) ⟨1, 1, 1, 100, false⟩
    (of_decide_eq_true (by with_unfolding_all rfl))

def c1state : State :=
  { users := [1],
    habits := [⟨1, 1, HabitType.boolean, 1, 0, 0, true, some 10⟩],
    logs := [⟨1, 1, 0, 1, true⟩],
    pending := [],
    participants := [⟨10, 1, 0⟩] }

/-- Claim C1, evaluated at the failing input: one user with one completed
marathon-linked habit.  A single settlement run credits exactly +1 point,
but a second run for the same day with no new data credits again, taking
the participant's balance to 2 — process_end_of_day has no re-run guard, so
the claim's never-credits-twice part fails on the code. -/
theorem settlement_double_credits :
    getPoints (process_end_of_day c1state 0) 1 10 = 1 ∧
    getPoints (process_end_of_day (process_end_of_day c1state 0) 0) 1 10 = 2 :=
  ⟨by with_unfolding_all rfl, by with_unfolding_all rfl⟩

def c2state : State :=
  { users := [1],
    habits := [⟨1, 1, HabitType.boolean, 1, 0, 0, true, none⟩,
               ⟨2, 1, HabitType.boolean, 1, 0, 0, true, none⟩],
    logs := [],
    pending := [⟨1, 1, 1, 100, false⟩],
    participants := [] }

/-- Claim C2 counterexample: user 1 has an unresolved pending notification
referencing habit 1; a log write for the user's other habit 2 (the handler
calls log_habit then mark_notification_responded with that habit id) leaves
the ledger entry unresponded, refuting the claim that any habit log write
by the user marks the pending notification as responded. -/
theorem log_other_habit_leaves_pending_unmarked :
    (handler_log_value c2state 1 2 1 0).pending = [⟨1, 1, 1, 100, false⟩] := by
  with_unfolding_all rfl

theorem log_habit_some_of_found (s : State) (hid uid : Nat) (v : ℚ) (d : Int)
    (habit : Habit) (hh : findHabit s hid = some habit) :
    ∃ s' r, log_habit s hid uid v d = some (s', r) := by
  rcases he : findLog s.logs hid d with _ | e
  · exact ⟨_, _, log_habit_insert_eq s hid uid v d habit hh he⟩
  · exact ⟨_, _, log_habit_update_eq s hid uid v d habit e hh he⟩

/-- Claim C2 amended: a habit log write that completes (the logged habit
exists, so log_habit does not raise) marks as responded exactly the user's
pending entries whose stored habit id equals the logged habit; an entry
referencing a different habit is left unchanged in the ledger. -/
theorem mark_responded_matching_habit (s : State) (uid hid : Nat) (v : ℚ)
    (d : Int) (habit : Habit) (hh : findHabit s hid = some habit) :
    (∀ p ∈ (handler_log_value s uid hid v d).pending,
        p.user_id = uid → p.habit_id = hid → p.responded = true) ∧
    (∀ p ∈ s.pending, p.habit_id ≠ hid →
        p ∈ (handler_log_value s uid hid v d).pending) := by
  obtain ⟨s', r, hlog⟩ := log_habit_some_of_found s hid uid v d habit hh
  have hpend : (handler_log_value s uid hid v d).pending =
      s.pending.map (fun p =>
        if p.user_id == uid && p.habit_id == hid && !p.responded then
          { p with responded := true }
        else p) := by
    unfold handler_log_value mark_notification_responded
    rw [hlog]
    dsimp only
    rw [(log_habit_some_tables s hid uid v d s' r hlog).2.2.1]
  constructor
  · intro p hp hu hh
    rw [hpend, List.mem_map] at hp
    obtain ⟨q, hq, hfq⟩ := hp
    by_cases hcond : (q.user_id == uid && q.habit_id == hid && !q.responded) = true
    · rw [if_pos hcond] at hfq
      subst hfq
      rfl
    · rw [if_neg hcond] at hfq
      subst hfq
      cases hr : q.responded
      · exact absurd (by simp [hu, hh, hr]) hcond
      · rfl
  · intro p hp hneq
    rw [hpend, List.mem_map]
    refine ⟨p, hp, ?_⟩
    have hcond : ¬(p.user_id == uid && p.habit_id == hid && !p.responded) = true := by
      intro hc
      simp only [Bool.and_eq_true, beq_iff_eq] at hc
      exact hneq hc.1.2
    rw [if_neg hcond]

def c2wstate : State :=
  { users := [1],
    habits := [⟨2, 1, HabitType.boolean, 1, 0, 0, true, none⟩],
    logs := [],
    pending := [⟨1, 1, 2, 100, false⟩, ⟨5, 2, 9, 100, false⟩],
    participants := [] }

/-- Witness for the amended C2: habit 2 exists, so logging it completes and
marks user 1's pending entry for habit 2 as responded, while the entry
referencing habit 9 passes through the ledger unchanged. -/
theorem mark_responded_matching_habit_witness :
    (⟨1, 1, 2, 100, true⟩ : Pending).responded = true ∧
    (⟨5, 2, 9, 100, false⟩ : Pending) ∈ (handler_log_value c2wstate 1 2 1 0).pending :=
  ⟨(mark_responded_matching_habit c2wstate 1 2 1 0
        ⟨2, 1, HabitType.boolean, 1, 0, 0, true, none⟩
        (by with_unfolding_all rfl)).1 ⟨1, 1, 2, 100, true⟩
      (of_decide_eq_true (by with_unfolding_all rfl)) rfl rfl,
   (mark_responded_matching_habit c2wstate 1 2 1 0
        ⟨2, 1, HabitType.boolean, 1, 0, 0, true, none⟩
        (by with_unfolding_all rfl)).2 ⟨5, 2, 9, 100, false⟩
      (of_decide_eq_true (by with_unfolding_all rfl))
      (of_decide_eq_true (by with_unfolding_all rfl))⟩

/-- Claim C8: the boolean-habit aggregation returns missedDays =
totalDays - completedDays, efficiency 0 when totalDays = 0, and otherwise
efficiency = completedDays/totalDays*100 rounded to one decimal. -/
theorem get_habit_stats_bool_spec (s : State) (hid : Nat) (a b : Int)
    (st : BoolStats) (h : get_habit_stats_bool s hid a b = some st) :
    st.missed_days = st.total_days - st.completed_days ∧
    (st.total_days = 0 → st.efficiency = 0) ∧
    (0 < st.total_days →
      st.efficiency = pyRound1 ((st.completed_days : ℚ) / (st.total_days : ℚ) * 100)) := by
  unfold get_habit_stats_bool at h
  cases hf : findHabit s hid with
  | none => rw [hf] at h; cases h
  | some habit =>
    rw [hf] at h
    dsimp only at h
    by_cases hb : habit.habit_type = HabitType.boolean
    · rw [if_pos hb] at h
      have hst := Option.some.inj h
      subst hst
      refine ⟨rfl, ?_, ?_⟩
      · intro h0
        dsimp only at h0 ⊢
        exact if_neg (by omega)
      · intro hpos
        dsimp only at hpos ⊢
        exact if_pos hpos
    · rw [if_neg hb] at h
      cases h

def c8state : State :=
  { users := [1],
    habits := [⟨1, 1, HabitType.boolean, 1, 0, 0, true, none⟩],
    logs := [⟨1, 1, 0, 1, true⟩, ⟨1, 1, 1, 1, true⟩, ⟨1, 1, 2, 1, true⟩,
             ⟨1, 1, 3, 1, true⟩, ⟨1, 1, 4, 1, true⟩, ⟨1, 1, 5, 0, false⟩],
    pending := [],
    participants := [] }

def c8stats : BoolStats := ⟨7, 5, 2, 714 / 10⟩

/-- Witness for C8 at the claim's concrete instance: a boolean habit with 5
completed days in the 7-day window 0..6 yields stats (7, 5, 2, 71.4); they
satisfy the missed-days and rounded-efficiency equations. -/
theorem get_habit_stats_bool_spec_witness :
    c8stats.missed_days = c8stats.total_days - c8stats.completed_days ∧
    (c8stats.total_days = 0 → c8stats.efficiency = 0) ∧
    (0 < c8stats.total_days →
      c8stats.efficiency =
        pyRound1 ((c8stats.completed_days : ℚ) / (c8stats.total_days : ℚ) * 100)) :=
  get_habit_stats_bool_spec c8state 1 0 6 c8stats (by with_unfolding_all rfl)

end HabitBot
